import Mathlib

/-!
Verification of the Carpool bot membership and capacity engine.

The relational store (tables trips, cars, car_members, join_requests from
src/config/database.py init_db, together with the active column added by
src/db_scripts/add_trip_active_status.py) is embedded as lists of rows.
Each slash-command or button handler from src/commands is translated into a
pure function from a database state and its inputs to a new database state,
an outcome and a list of notification side effects.  SQL fetchone is modelled
by List.find? in row order, DELETE by List.filter, INSERT by list append, and
a psycopg2 UniqueViolation by an explicit pre-check of the violated key; a
caught UniqueViolation aborts the transaction, leaving the state unchanged.
-/

namespace Carpool

/-- Row of the trips table: name, channel_id, created_by, active. -/
structure Trip where
  name : String
  channel_id : String
  created_by : String
  active : Bool
deriving DecidableEq, Repr

/-- Row of the cars table: id (global integer primary key), trip, channel_id,
display name, seats, created_by.  UNIQUE(trip, channel_id, created_by). -/
structure Car where
  id : Nat
  trip : String
  channel_id : String
  name : String
  seats : Int
  created_by : String
deriving DecidableEq, Repr

/-- Row of the car_members table, primary key (car_id, user_id). -/
structure CarMember where
  car_id : Nat
  user_id : String
deriving DecidableEq, Repr

/-- Row of the join_requests table, primary key (car_id, user_id). -/
structure JoinRequest where
  car_id : Nat
  user_id : String
deriving DecidableEq, Repr

/-- The database state: the four tables as lists of rows in insertion order. -/
structure DB where
  trips : List Trip
  cars : List Car
  car_members : List CarMember
  join_requests : List JoinRequest
deriving DecidableEq, Repr

/-- Tags identifying each human-readable message the handlers emit. -/
inductive Msg
  | noActiveTripMsg
  | alreadyCreatedCar
  | carCreated
  | carCreatedAnnounce
  | carNoLongerExists
  | memberLeftYourCar
  | leftToSwitchAnnounce
  | alreadyInCarMsg
  | carFullUpdate
  | deniedCarFullDm
  | approvedUpdate
  | approvedDm
  | joinedAnnounce
  | approvedSwitchUpdate
  | switchedDm
  | switchedAnnounce
  | deniedUpdate
  | deniedDm
  | cannotJoinOwnCar
  | ownYourOwnCar
  | pendingRequestExists
  | targetHasNoCarMsg
  | switchConfirmButtons
  | switchPromptSent
  | alreadyRequestedThisCar
  | joinRequestButtons
  | requestSent
  | alreadyPendingThisCar
  | switchRequestSent
  | notInAnyCar
  | leftAndDeletedCar
  | ownerLeftAnnounce
  | leftCarMsg
  | memberLeftAnnounce
  | noValidUsersToAdd
  | noCarToAddTo
  | insufficientSeatsMsg
  | noUsersAdded
  | addedToCarDm
  | addedUsersEph
  | addedAnnounce
  | seatsAtLeastOne
  | noCarToUpdate
  | cannotReduceBelowMembers
  | noChangeNeeded
  | updateConfirmButtons
  | carGoneOrNotOwner
  | seatsUpdated
  | usageTrip
  | nameTakenMsg
  | sameActiveMsg
  | cannotSwitchTrip
  | tripActivated
  | tripCreated
  | tripRecovered
deriving DecidableEq, Repr

/-- A notification side effect: an ephemeral reply to the caller, a direct
message to a user, a post to a channel, or an update of the button message. -/
inductive Notif
  | eph (m : Msg)
  | dm (user : String) (m : Msg)
  | channelPost (channel : String) (m : Msg)
  | chatUpdate (m : Msg)
deriving DecidableEq, Repr

/-- True when the notification is a direct message to some user. -/
def Notif.isDm : Notif → Bool
  | .dm _ _ => true
  | _ => false

/-- Result of an operation: outcome, new database state, notifications. -/
structure Res (α : Type) where
  out : α
  db : DB
  notifs : List Notif
deriving Repr

instance {α : Type} [DecidableEq α] : DecidableEq (Res α) := fun a b => by
  cases a; cases b
  exact decidable_of_iff _ (by simp [Res.mk.injEq] at *; exact Iff.rfl)

/-- SELECT name, created_by FROM trips WHERE channel_id=ch AND active=TRUE
(fetchone), as used at the top of every channel-scoped command. -/
def activeTrip (db : DB) (ch : String) : Option Trip :=
  db.trips.find? (fun t => t.channel_id == ch && t.active)

/-- SELECT ... FROM cars WHERE id=i (fetchone). -/
def findCar (db : DB) (i : Nat) : Option Car :=
  db.cars.find? (fun c => c.id == i)

/-- SELECT ... FROM cars WHERE channel_id=ch AND trip=trip AND created_by=u. -/
def carOfOwner (db : DB) (ch trip u : String) : Option Car :=
  db.cars.find? (fun c => c.channel_id == ch && c.trip == trip && c.created_by == u)

/-- SELECT COUNT(*) FROM car_members WHERE car_id=i. -/
def memberCount (db : DB) (i : Nat) : Nat :=
  (db.car_members.filter (fun m => m.car_id == i)).length

/-- SELECT 1 FROM car_members WHERE car_id=i AND user_id=u (existence). -/
def isMember (db : DB) (i : Nat) (u : String) : Bool :=
  db.car_members.any (fun m => m.car_id == i && m.user_id == u)

/-- SELECT 1 FROM join_requests WHERE car_id=i AND user_id=u (existence). -/
def hasRequest (db : DB) (i : Nat) (u : String) : Bool :=
  db.join_requests.any (fun r => r.car_id == i && r.user_id == u)

/-- SELECT c.* FROM car_members cm JOIN cars c ON cm.car_id = c.id
WHERE cm.user_id=u AND c.trip=trip AND c.channel_id=ch (fetchone). -/
def userCarInTrip (db : DB) (u trip ch : String) : Option Car :=
  (db.car_members.filterMap (fun m =>
    if m.user_id == u then
      db.cars.find? (fun c => c.id == m.car_id && c.trip == trip && c.channel_id == ch)
    else none)).head?

/-- SELECT c.* FROM join_requests jr JOIN cars c ON jr.car_id = c.id
WHERE jr.user_id=u AND c.channel_id=ch AND c.trip=trip (fetchone). -/
def userRequestCar (db : DB) (u ch trip : String) : Option Car :=
  (db.join_requests.filterMap (fun r =>
    if r.user_id == u then
      db.cars.find? (fun c => c.id == r.car_id && c.channel_id == ch && c.trip == trip)
    else none)).head?

/-- SELECT c.* FROM cars c JOIN car_members cm ON c.id = cm.car_id
WHERE c.channel_id=ch AND c.trip=trip AND cm.user_id=u (fetchone). -/
def carOfMemberJoin (db : DB) (ch trip u : String) : Option Car :=
  db.cars.find? (fun c => c.channel_id == ch && c.trip == trip && isMember db c.id u)

/-- DELETE FROM join_requests WHERE car_id=i AND user_id=u. -/
def removeRequest (db : DB) (i : Nat) (u : String) : DB :=
  { db with join_requests :=
      db.join_requests.filter (fun r => !(r.car_id == i && r.user_id == u)) }

/-- DELETE FROM car_members WHERE car_id=i AND user_id=u. -/
def removeMember (db : DB) (i : Nat) (u : String) : DB :=
  { db with car_members :=
      db.car_members.filter (fun m => !(m.car_id == i && m.user_id == u)) }

/-- DELETE FROM cars WHERE id=i, with the ON DELETE CASCADE of the
car_members and join_requests foreign keys from init_db. -/
def deleteCarCascade (db : DB) (i : Nat) : DB :=
  { db with
    cars := db.cars.filter (fun c => !(c.id == i)),
    car_members := db.car_members.filter (fun m => !(m.car_id == i)),
    join_requests := db.join_requests.filter (fun r => !(r.car_id == i)) }

/-- The existing car ids of one (trip, channel) scope, in table order
(SELECT id FROM cars WHERE trip=trip AND channel_id=ch). -/
def scopeIds (db : DB) (trip ch : String) : List Nat :=
  (db.cars.filter (fun c => c.trip == trip && c.channel_id == ch)).map (fun c => c.id)

/-- Python max over a list of naturals (0 on the empty list). -/
def listMax : List Nat → Nat
  | [] => 0
  | x :: xs => max x (listMax xs)

/-- get_next_available_car_id from src/utils/helpers.py: scan i = 1 .. max of
the existing scope ids for the first id not in use, else max + 1; 1 when the
scope has no cars. -/
def get_next_available_car_id (db : DB) (trip ch : String) : Nat :=
  let existing := scopeIds db trip ch
  if existing.isEmpty then 1
  else
    match (List.range' 1 (listMax existing)).find? (fun i => !(existing.contains i)) with
    | some i => i
    | none => listMax existing + 1

/-- Outcome of the /car command. -/
inductive CarOut
  | noActiveTrip
  | uniqueViolation
  | ok (i : Nat)
deriving DecidableEq, Repr

/-- cmd_car from src/commands/car.py: create a car on the active trip with the
gap-filling id, inserting the creator as first member.  The INSERT into cars
raises UniqueViolation when the id is already taken anywhere (id is the global
primary key) or when the creator already has a car in this (trip, channel)
scope; the INSERT into car_members raises it when that membership row exists.
A caught UniqueViolation leaves the transaction unwritten and answers with the
you-already-created-a-car ephemeral. -/
def cmd_car (db : DB) (ch user : String) (seats : Int) (username : String) : Res CarOut :=
  match activeTrip db ch with
  | none => ⟨.noActiveTrip, db, [.eph .noActiveTripMsg]⟩
  | some t =>
    let trip := t.name
    let cname := username ++ " car"
    let car_id := get_next_available_car_id db trip ch
    if db.cars.any (fun c => c.id == car_id) ||
       db.cars.any (fun c => c.trip == trip && c.channel_id == ch && c.created_by == user) ||
       db.car_members.any (fun m => m.car_id == car_id && m.user_id == user) then
      ⟨.uniqueViolation, db, [.eph .alreadyCreatedCar]⟩
    else
      ⟨.ok car_id,
       { db with
         cars := db.cars ++ [⟨car_id, trip, ch, cname, seats, user⟩],
         car_members := db.car_members ++ [⟨car_id, user⟩] },
       [.eph .carCreated, .channelPost ch .carCreatedAnnounce]⟩

/-- Number of membership rows of user u that belong to cars of the given
(trip, channel) scope: the quantity bounded by the one-car-per-user invariant. -/
def userMembershipCount (db : DB) (u trip ch : String) : Nat :=
  (db.car_members.filter (fun m => m.user_id == u &&
    db.cars.any (fun c => c.id == m.car_id && c.trip == trip && c.channel_id == ch))).length

/-- Number of pending join requests of user u whose car lies in the given
(channel, trip) scope: the quantity bounded by the one-request invariant. -/
def userPendingCount (db : DB) (u ch trip : String) : Nat :=
  (db.join_requests.filter (fun r => r.user_id == u &&
    db.cars.any (fun c => c.id == r.car_id && c.channel_id == ch && c.trip == trip))).length

/-- Every car of the database holds no more members than it has seats. -/
def capacityOK (db : DB) : Prop :=
  ∀ c ∈ db.cars, (memberCount db c.id : Int) ≤ c.seats

/-- Outcome of the approve_request button handler. -/
inductive ApproveOut
  | carGone
  | alreadyInCar
  | carFull
  | approved (old : Option Nat)
deriving DecidableEq, Repr

/-- act_approve from src/commands/member.py: the approve_request button.  The
invoking user from the interaction body is never consulted.  Steps, in source
order: look the car up by id; if the target user is a member of any car of the
same trip and channel, delete that membership and notify its owner (the switch
completion) -- this happens before every other check; if the target user is
(still) a member of this very car, drop the stale request and stop; if the car
is at capacity, drop the request, report the car full and stop -- the earlier
membership removal stays committed; otherwise delete the request and insert
the membership, all in one transaction. -/
def act_approve (db : DB) (ch _caller : String) (car_id : Nat) (user_to_add : String) :
    Res ApproveOut :=
  match findCar db car_id with
  | none => ⟨.carGone, db, [.chatUpdate .carNoLongerExists]⟩
  | some car =>
    match userCarInTrip db user_to_add car.trip ch with
    | some oldCar =>
      let db1 := removeMember db oldCar.id user_to_add
      let n1 : List Notif :=
        [.dm oldCar.created_by .memberLeftYourCar, .channelPost ch .leftToSwitchAnnounce]
      if isMember db1 car_id user_to_add then
        ⟨.alreadyInCar, removeRequest db1 car_id user_to_add, n1 ++ [.chatUpdate .alreadyInCarMsg]⟩
      else if car.seats ≤ (memberCount db1 car_id : Int) then
        ⟨.carFull, removeRequest db1 car_id user_to_add,
         n1 ++ [.chatUpdate .carFullUpdate, .dm user_to_add .deniedCarFullDm]⟩
      else
        let db2 := removeRequest db1 car_id user_to_add
        ⟨.approved (some oldCar.id),
         { db2 with car_members := db2.car_members ++ [⟨car_id, user_to_add⟩] },
         n1 ++ [.chatUpdate .approvedSwitchUpdate, .dm user_to_add .switchedDm,
                .channelPost ch .switchedAnnounce]⟩
    | none =>
      if isMember db car_id user_to_add then
        ⟨.alreadyInCar, removeRequest db car_id user_to_add, [.chatUpdate .alreadyInCarMsg]⟩
      else if car.seats ≤ (memberCount db car_id : Int) then
        ⟨.carFull, removeRequest db car_id user_to_add,
         [.chatUpdate .carFullUpdate, .dm user_to_add .deniedCarFullDm]⟩
      else
        let db2 := removeRequest db car_id user_to_add
        ⟨.approved none,
         { db2 with car_members := db2.car_members ++ [⟨car_id, user_to_add⟩] },
         [.chatUpdate .approvedUpdate, .dm user_to_add .approvedDm,
          .channelPost ch .joinedAnnounce]⟩

/-- act_deny from src/commands/member.py: the deny_request button deletes the
join request and notifies the denied user.  The invoking user from the
interaction body is never consulted. -/
def act_deny (db : DB) (_caller : String) (car_id : Nat) (user_to_deny : String) : Res Unit :=
  ⟨(), removeRequest db car_id user_to_deny,
   [.chatUpdate .deniedUpdate, .dm user_to_deny .deniedDm]⟩

/-- Outcome of the /in command. -/
inductive InOut
  | selfJoin
  | noActiveTrip
  | alreadyOwnsCar
  | duplicateRequest
  | targetHasNoCar
  | switchPrompt (newCar oldCar : Nat)
  | uniqueViolation
  | requested (i : Nat)
deriving DecidableEq, Repr

/-- cmd_in from src/commands/member.py, after the target car owner has been
resolved from the mention text (glue).  Checks in source order: not the
requesting user themselves; an active trip exists; the requester does not own
a car on the trip; the requester has no pending request on the trip; the
target owner has a car.  A requester already in a car only receives the
switch-confirmation dialog, with no state change; otherwise the join request
is inserted (UniqueViolation on the (car_id, user_id) key answered with the
already-requested ephemeral) and the owner receives the approve/deny buttons. -/
def cmd_in (db : DB) (ch user target : String) : Res InOut :=
  if target == user then ⟨.selfJoin, db, [.eph .cannotJoinOwnCar]⟩
  else
    match activeTrip db ch with
    | none => ⟨.noActiveTrip, db, [.eph .noActiveTripMsg]⟩
    | some t =>
      match carOfOwner db ch t.name user with
      | some _ => ⟨.alreadyOwnsCar, db, [.eph .ownYourOwnCar]⟩
      | none =>
        match userRequestCar db user ch t.name with
        | some _ => ⟨.duplicateRequest, db, [.eph .pendingRequestExists]⟩
        | none =>
          match carOfOwner db ch t.name target with
          | none => ⟨.targetHasNoCar, db, [.eph .targetHasNoCarMsg]⟩
          | some car =>
            match userCarInTrip db user t.name ch with
            | some cc =>
              ⟨.switchPrompt car.id cc.id, db,
               [.dm user .switchConfirmButtons, .eph .switchPromptSent]⟩
            | none =>
              if hasRequest db car.id user then
                ⟨.uniqueViolation, db, [.eph .alreadyRequestedThisCar]⟩
              else
                ⟨.requested car.id,
                 { db with join_requests := db.join_requests ++ [⟨car.id, user⟩] },
                 [.dm car.created_by .joinRequestButtons, .eph .requestSent]⟩

/-- Outcome of the confirm_car_switch button handler. -/
inductive SwitchOut
  | carGone
  | uniqueViolation
  | sent
deriving DecidableEq, Repr

/-- act_confirm_car_switch from src/commands/member.py: the affirmative button
of the switch-confirmation dialog.  It looks the requested car up by id and
inserts the join request; the only duplicate guard is the UniqueViolation of
the (car_id, user_id) primary key of join_requests.  The current car id from
the button value is parsed but never used. -/
def act_confirm_car_switch (db : DB) (car_id : Nat) (user_id : String)
    (_current_car_id : Nat) : Res SwitchOut :=
  match findCar db car_id with
  | none => ⟨.carGone, db, [.chatUpdate .carNoLongerExists]⟩
  | some car =>
    if hasRequest db car_id user_id then
      ⟨.uniqueViolation, db, [.chatUpdate .alreadyPendingThisCar]⟩
    else
      ⟨.sent, { db with join_requests := db.join_requests ++ [⟨car_id, user_id⟩] },
       [.dm car.created_by .joinRequestButtons, .chatUpdate .switchRequestSent]⟩

/-- Outcome of the /out command. -/
inductive OutOut
  | noActiveTrip
  | notInCar
  | ownerLeft (i : Nat)
  | memberLeft (i : Nat)
deriving DecidableEq, Repr

/-- cmd_out from src/commands/member.py: find the car the user occupies on the
active trip.  When the user is the creator, delete all membership rows of the
car and the car row itself (pending join requests disappear through the ON
DELETE CASCADE of init_db), answer the owner ephemerally and announce to the
channel -- the other members receive no direct message.  Otherwise delete just
the one membership row. -/
def cmd_out (db : DB) (ch user : String) : Res OutOut :=
  match activeTrip db ch with
  | none => ⟨.noActiveTrip, db, [.eph .noActiveTripMsg]⟩
  | some t =>
    match carOfMemberJoin db ch t.name user with
    | none => ⟨.notInCar, db, [.eph .notInAnyCar]⟩
    | some car =>
      if user == car.created_by then
        ⟨.ownerLeft car.id, deleteCarCascade db car.id,
         [.eph .leftAndDeletedCar, .channelPost ch .ownerLeftAnnounce]⟩
      else
        ⟨.memberLeft car.id, removeMember db car.id user,
         [.eph .leftCarMsg, .channelPost ch .memberLeftAnnounce]⟩

/-- Order-preserving removal of duplicate mentions (the unique_target_users
loop of cmd_add), keeping the first occurrence of each user. -/
def dedupFirst (seen : List String) : List String → List String
  | [] => []
  | x :: xs => if seen.contains x then dedupFirst seen xs else x :: dedupFirst (x :: seen) xs

/-- The insertion loop shared by cmd_add and add_users_to_car: insert each
validated target into car_members, skipping a target whose row already exists
(the caught per-row UniqueViolation / generic exception).  Returns the new
state and the users actually inserted, in order. -/
def insertMembers (db : DB) (car_id : Nat) : List String → DB × List String
  | [] => (db, [])
  | tu :: rest =>
    if isMember db car_id tu then insertMembers db car_id rest
    else
      let db1 := { db with car_members := db.car_members ++ [⟨car_id, tu⟩] }
      let p := insertMembers db1 car_id rest
      (p.1, tu :: p.2)

/-- Outcome of the /add command. -/
inductive AddOut
  | noTargets
  | noActiveTrip
  | noCar
  | insufficientSeats
  | noneAdded
  | added (users : List String)
deriving DecidableEq, Repr

/-- cmd_add from src/commands/member.py, after mention parsing (glue): dedms
the targets, drops the caller, requires an active trip and a car created by
the caller on it, rejects the whole batch when it exceeds the available seats
(seats minus current member count), filters out targets already in this car or
in any other car of the trip, and inserts the rest together. -/
def cmd_add (db : DB) (ch user : String) (raw_targets : List String) : Res AddOut :=
  let targets := (dedupFirst [] raw_targets).erase user
  if targets.isEmpty then ⟨.noTargets, db, [.eph .noValidUsersToAdd]⟩
  else
    match activeTrip db ch with
    | none => ⟨.noActiveTrip, db, [.eph .noActiveTripMsg]⟩
    | some t =>
      match carOfOwner db ch t.name user with
      | none => ⟨.noCar, db, [.eph .noCarToAddTo]⟩
      | some car =>
        let current := memberCount db car.id
        if car.seats - (current : Int) < (targets.length : Int) then
          ⟨.insufficientSeats, db, [.eph .insufficientSeatsMsg]⟩
        else
          let users_to_add := targets.filter
            (fun tu => !(isMember db car.id tu) && (userCarInTrip db tu t.name ch).isNone)
          if users_to_add.isEmpty then ⟨.noneAdded, db, [.eph .noUsersAdded]⟩
          else
            let p := insertMembers db car.id users_to_add
            ⟨.added p.2, p.1,
             [.eph .addedUsersEph] ++ p.2.map (fun tu => Notif.dm tu .addedToCarDm) ++
               [.channelPost ch .addedAnnounce]⟩

/-- Outcome of the standalone add_users_to_car function. -/
inductive SAddOut
  | carNotFound
  | notOwner
  | noneAdded
  | added (users : List String)
deriving DecidableEq, Repr

/-- add_users_to_car from src/commands/member.py (standalone helper): looks
the car up by (id, channel), requires the caller to be its creator, filters
out targets already in this car or in another car of the same trip, and
inserts every remaining target.  Unlike cmd_add it never compares the batch
against the available seats. -/
def add_users_to_car (db : DB) (car_id : Nat) (ch user : String)
    (targets : List String) : Res SAddOut :=
  match db.cars.find? (fun c => c.id == car_id && c.channel_id == ch) with
  | none => ⟨.carNotFound, db, []⟩
  | some car =>
    if !(user == car.created_by) then ⟨.notOwner, db, []⟩
    else
      let users_to_add := targets.filter
        (fun tu => !(isMember db car_id tu) && (userCarInTrip db tu car.trip ch).isNone)
      if users_to_add.isEmpty then ⟨.noneAdded, db, []⟩
      else
        let p := insertMembers db car_id users_to_add
        ⟨.added p.2, p.1,
         p.2.map (fun tu => Notif.dm tu .addedToCarDm) ++ [.channelPost ch .addedAnnounce]⟩

/-- Outcome of the /update command. -/
inductive UpdateOut
  | badSeats
  | noActiveTrip
  | noCar
  | belowMembership
  | noChange
  | prompt (i : Nat) (newSeats oldSeats : Int)
deriving DecidableEq, Repr

/-- cmd_update from src/commands/manage.py: requires seats at least 1, an
active trip and a car created by the caller; rejects a new seat count below
the current member count; reports no change needed when the count is already
the current capacity; otherwise answers with the confirmation buttons carrying
(car id, new seats, old seats) and writes nothing yet. -/
def cmd_update (db : DB) (ch user : String) (new_seats : Int) : Res UpdateOut :=
  if new_seats < 1 then ⟨.badSeats, db, [.eph .seatsAtLeastOne]⟩
  else
    match activeTrip db ch with
    | none => ⟨.noActiveTrip, db, [.eph .noActiveTripMsg]⟩
    | some t =>
      match carOfOwner db ch t.name user with
      | none => ⟨.noCar, db, [.eph .noCarToUpdate]⟩
      | some car =>
        if new_seats < (memberCount db car.id : Int) then
          ⟨.belowMembership, db, [.eph .cannotReduceBelowMembers]⟩
        else if new_seats == car.seats then
          ⟨.noChange, db, [.eph .noChangeNeeded]⟩
        else
          ⟨.prompt car.id new_seats car.seats, db, [.eph .updateConfirmButtons]⟩

/-- Outcome of the confirm_update_car button handler. -/
inductive ConfirmUpdateOut
  | notOwner
  | updated
deriving DecidableEq, Repr

/-- handle_confirm_update_car from src/commands/manage.py: re-verifies only
that the car still exists and the clicking user still owns it, then writes the
new seat count; the member count is not checked again. -/
def handle_confirm_update_car (db : DB) (car_id : Nat) (new_seats : Int)
    (user : String) : Res ConfirmUpdateOut :=
  match findCar db car_id with
  | none => ⟨.notOwner, db, [.chatUpdate .carGoneOrNotOwner]⟩
  | some car =>
    if !(car.created_by == user) then ⟨.notOwner, db, [.chatUpdate .carGoneOrNotOwner]⟩
    else
      ⟨.updated,
       { db with cars := db.cars.map (fun c => if c.id == car_id then { c with seats := new_seats } else c) },
       [.chatUpdate .seatsUpdated]⟩

/-- Overall outcome of the two-phase seat update. -/
inductive SeatsFlowOut
  | failed
  | unchanged
  | updated
deriving DecidableEq, Repr

/-- The two-phase UpdateSeats flow: the /update command immediately followed,
when it answers with the confirmation buttons, by the confirm handler clicked
by the same user on the unchanged state. -/
def updateSeatsFlow (db : DB) (ch user : String) (n : Int) : SeatsFlowOut × DB :=
  match cmd_update db ch user n with
  | ⟨.prompt i ns _, db1, _⟩ =>
    match handle_confirm_update_car db1 i ns user with
    | ⟨.updated, db2, _⟩ => (.updated, db2)
    | ⟨.notOwner, db2, _⟩ => (.failed, db2)
  | ⟨.noChange, db1, _⟩ => (.unchanged, db1)
  | ⟨_, db1, _⟩ => (.failed, db1)

/-- Outcome of the /trip command. -/
inductive TripOut
  | emptyName
  | nameTaken
  | sameActive
  | cannotSwitch
  | activated
  | created
  | recovered
deriving DecidableEq, Repr

/-- UPDATE trips SET active = FALSE WHERE name = trip. -/
def deactivateTripByName (db : DB) (trip : String) : DB :=
  { db with trips := db.trips.map (fun t => if t.name == trip then { t with active := false } else t) }

/-- UPDATE trips SET active = FALSE WHERE channel_id = ch AND active = TRUE. -/
def deactivateChannelTrips (db : DB) (ch : String) : DB :=
  { db with trips := db.trips.map (fun t => if t.channel_id == ch && t.active then { t with active := false } else t) }

/-- UPDATE trips SET channel_id = ch, active = TRUE WHERE name = trip. -/
def activateTripForChannel (db : DB) (trip ch : String) : DB :=
  { db with trips := db.trips.map (fun t => if t.name == trip then { t with channel_id := ch, active := true } else t) }

/-- The cascade deletion of a trip by name performed by cmd_trip on a stale
trip of an inactive channel: car members and join requests of its cars, the
cars, then the trips rows of that name. -/
def deleteTripCascadeByName (db : DB) (trip : String) : DB :=
  let carIds := (db.cars.filter (fun c => c.trip == trip)).map (fun c => c.id)
  { db with
    car_members := db.car_members.filter (fun m => !(carIds.contains m.car_id)),
    join_requests := db.join_requests.filter (fun r => !(carIds.contains r.car_id)),
    cars := db.cars.filter (fun c => !(c.trip == trip)),
    trips := db.trips.filter (fun t => !(t.name == trip)) }

/-- cmd_trip from src/commands/trip.py.  isChActive is the conversations_info
collaborator (is the channel still reachable), members the channel membership
lookup.  Source order: global name lookup -- a name used by an active foreign
channel is refused, a name of an inactive foreign channel is cascade-deleted;
the lookup is then repeated (deactivating instead of deleting, a branch dead
after the first step); a different active trip of this channel stops the
command when its creator is someone else who is still present -- the source
only returns the cannot-switch ephemeral here, the approval flow mentioned in
its comment is not implemented -- and is otherwise deactivated; finally the
named trip is re-activated for this channel or freshly inserted. -/
def cmd_trip (db : DB) (isChActive : String → Bool) (members : List String)
    (ch user trip : String) : Res TripOut :=
  if trip == "" then ⟨.emptyName, db, [.eph .usageTrip]⟩
  else
    let step1 : Option (Res TripOut) × DB :=
      match db.trips.find? (fun t => t.name == trip) with
      | some t0 =>
        if t0.channel_id == ch then (none, db)
        else if isChActive t0.channel_id then
          (some ⟨.nameTaken, db, [.eph .nameTakenMsg]⟩, db)
        else (none, deleteTripCascadeByName db trip)
      | none => (none, db)
    match step1.1 with
    | some r => r
    | none =>
      let db1 := step1.2
      let step2 : Option (Res TripOut) × DB :=
        match db1.trips.find? (fun t => t.name == trip) with
        | some t1 =>
          if t1.channel_id == ch then (none, db1)
          else if isChActive t1.channel_id then
            (some ⟨.nameTaken, db1, [.eph .nameTakenMsg]⟩, db1)
          else
            (none, deactivateTripByName db1 trip)
        | none => (none, db1)
      match step2.1 with
      | some r => r
      | none =>
        let db2 := step2.2
        let step3 : Option (Res TripOut) × DB :=
          match db2.trips.find? (fun t => t.channel_id == ch && t.active) with
          | some ct =>
            if ct.name == trip then (some ⟨.sameActive, db2, [.eph .sameActiveMsg]⟩, db2)
            else if !(ct.created_by == user) && members.contains ct.created_by then
              (some ⟨.cannotSwitch, db2, [.eph .cannotSwitchTrip]⟩, db2)
            else
              (none, deactivateChannelTrips db2 ch)
          | none => (none, db2)
        match step3.1 with
        | some r => r
        | none =>
          let db3 := step3.2
          match db3.trips.find? (fun t => t.name == trip) with
          | some _ =>
            ⟨.activated, activateTripForChannel db3 trip ch, [.eph .tripActivated]⟩
          | none =>
            if db3.trips.any (fun t => t.name == trip && t.channel_id == ch) then
              ⟨.recovered, activateTripForChannel db3 trip ch, [.eph .tripRecovered]⟩
            else
              ⟨.created, { db3 with trips := db3.trips ++ [⟨trip, ch, user, true⟩] },
               [.eph .tripCreated]⟩

/-! ## Concrete states used by the counterexamples and witnesses -/

/-- State for C1: active trip t in channel ch; user a created car 1 with
4 seats; users a and b are its members. -/
def dbC1 : DB := ⟨[⟨"t", "ch", "a", true⟩], [⟨1, "t", "ch", "a car", 4, "a"⟩],
  [⟨1, "a"⟩, ⟨1, "b"⟩], []⟩

/-- State for C2: car 1 (owner a, 2 seats) holds a and c; car 2 (owner b,
1 seat) holds b and is full; c has a pending request on car 2. -/
def dbC2 : DB := ⟨[⟨"t", "ch", "a", true⟩],
  [⟨1, "t", "ch", "x", 2, "a"⟩, ⟨2, "t", "ch", "y", 1, "b"⟩],
  [⟨1, "a"⟩, ⟨1, "c"⟩, ⟨2, "b"⟩], [⟨2, "c"⟩]⟩

/-- State for C3: car 1 (owner a) has a single seat and its single member a. -/
def dbC3 : DB := ⟨[⟨"t", "ch", "a", true⟩], [⟨1, "t", "ch", "x", 1, "a"⟩], [⟨1, "a"⟩], []⟩

/-- State for C4: three cars on trip t; user u is a member of car 1 and has
no pending request. -/
def dbC4 : DB := ⟨[⟨"t", "ch", "a", true⟩],
  [⟨1, "t", "ch", "x", 4, "a"⟩, ⟨2, "t", "ch", "y", 4, "b"⟩, ⟨3, "t", "ch", "z", 4, "c"⟩],
  [⟨1, "a"⟩, ⟨2, "b"⟩, ⟨3, "c"⟩, ⟨1, "u"⟩], []⟩

/-- State for C5: owner o of car 1 with members o, b, c and a pending join
request by d. -/
def dbC5 : DB := ⟨[⟨"t", "ch", "o", true⟩], [⟨1, "t", "ch", "x", 3, "o"⟩],
  [⟨1, "o"⟩, ⟨1, "b"⟩, ⟨1, "c"⟩], [⟨1, "d"⟩]⟩

/-- State for C6: channel ch has the active trip Winter created by user y. -/
def dbC6 : DB := ⟨[⟨"Winter", "ch", "y", true⟩], [], [], []⟩

/-- State for C7 witness: car 1 (owner a, 4 seats) with members a and b. -/
def dbC7 : DB := ⟨[⟨"t", "ch", "a", true⟩], [⟨1, "t", "ch", "x", 4, "a"⟩],
  [⟨1, "a"⟩, ⟨1, "b"⟩], []⟩

/-- State for C8 witness: scope (t, ch) holds car ids 1 and 3 -- the state
reached from ids 1, 2, 3 after deleting car 2. -/
def dbC8 : DB := ⟨[⟨"t", "ch", "a", true⟩],
  [⟨1, "t", "ch", "x", 4, "a"⟩, ⟨3, "t", "ch", "y", 4, "c"⟩], [], []⟩

/-- State for C9: car 2 is owned by b (2 seats, member b) and u has a pending
request on it; e is an unrelated user. -/
def dbC9 : DB := ⟨[⟨"t", "ch", "b", true⟩], [⟨2, "t", "ch", "y", 2, "b"⟩],
  [⟨2, "b"⟩], [⟨2, "u"⟩]⟩

/-- State for C10 witness: car id 1 exists in the foreign scope (t2, d) while
channel ch has the active trip t with no cars, so the allocator of (t, ch)
yields the colliding id 1. -/
def dbC10 : DB := ⟨[⟨"t", "ch", "a", true⟩, ⟨"t2", "d", "z", true⟩],
  [⟨1, "t2", "d", "z car", 4, "z"⟩], [⟨1, "z"⟩], []⟩

/-- State for C2 witness: same shape as dbC2. -/
def dbC2w : DB := ⟨[⟨"t", "ch", "a", true⟩],
  [⟨1, "t", "ch", "x", 2, "a"⟩, ⟨2, "t", "ch", "y", 1, "b"⟩],
  [⟨1, "a"⟩, ⟨1, "c"⟩, ⟨2, "b"⟩], [⟨2, "c"⟩]⟩

/-- State for C3 witness: car 1 (owner a, 2 seats, member a); join request of
u on car 1; b mentioned for /add. -/
def dbC3w : DB := ⟨[⟨"t", "ch", "a", true⟩], [⟨1, "t", "ch", "x", 2, "a"⟩],
  [⟨1, "a"⟩], [⟨1, "u"⟩]⟩

/-- State for C4 witness: user u has a pending request on car 1 of trip t. -/
def dbC4w : DB := ⟨[⟨"t", "ch", "a", true⟩],
  [⟨1, "t", "ch", "x", 4, "a"⟩, ⟨2, "t", "ch", "y", 4, "b"⟩],
  [⟨1, "a"⟩, ⟨2, "b"⟩], [⟨1, "u"⟩]⟩

/-- State for C5 witness: same shape as dbC5. -/
def dbC5w : DB := ⟨[⟨"t", "ch", "o", true⟩], [⟨1, "t", "ch", "x", 3, "o"⟩],
  [⟨1, "o"⟩, ⟨1, "b"⟩, ⟨1, "c"⟩], [⟨1, "d"⟩]⟩

/-! ## Helper lemmas -/

/-- Filtering away exactly the rows that satisfy p leaves no row satisfying p. -/
theorem any_filter_not_self {α : Type} (l : List α) (p : α → Bool) :
    (l.filter (fun x => !(p x))).any p = false := by
  rw [Bool.eq_false_iff]
  intro h
  rcases List.any_eq_true.1 h with ⟨x, hx, hpx⟩
  rcases List.mem_filter.1 hx with ⟨-, hnx⟩
  rw [hpx] at hnx
  simp at hnx

/-- Deleting a join request really removes it. -/
theorem hasRequest_removeRequest_self (db : DB) (i : Nat) (u : String) :
    hasRequest (removeRequest db i u) i u = false :=
  any_filter_not_self _ _

/-- Deleting a membership really removes it. -/
theorem isMember_removeMember_self (db : DB) (i : Nat) (u : String) :
    isMember (removeMember db i u) i u = false :=
  any_filter_not_self _ _

/-- Deleting a membership row never increases any member count. -/
theorem memberCount_removeMember_le (db : DB) (i : Nat) (u : String) (j : Nat) :
    memberCount (removeMember db i u) j ≤ memberCount db j :=
  (List.Sublist.filter _ (List.filter_sublist _)).length_le

/-- A hit of find? on a contiguous integer range satisfies the predicate, is
at least the start, and every earlier range element fails the predicate. -/
theorem find?_range'_eq_some (p : Nat → Bool) :
    ∀ n s i, (List.range' s n).find? p = some i →
      p i = true ∧ s ≤ i ∧ ∀ j, s ≤ j → j < i → p j = false := by
  intro n
  induction n with
  | zero => intro s i h; simp [List.range'] at h
  | succ n ih =>
    intro s i h
    rw [List.range'_succ] at h
    by_cases hs : p s
    · rw [List.find?_cons_of_pos _ hs] at h
      injection h with h
      subst h
      exact ⟨hs, le_refl _, fun j h1 h2 => absurd (lt_of_le_of_lt h1 h2) (lt_irrefl _)⟩
    · rw [List.find?_cons_of_neg _ hs] at h
      obtain ⟨hpi, hsi, hmin⟩ := ih (s + 1) i h
      refine ⟨hpi, le_trans (Nat.le_succ _) hsi, ?_⟩
      intro j h1 h2
      rcases Nat.eq_or_lt_of_le h1 with rfl | hlt
      · exact Bool.eq_false_iff.2 hs
      · exact hmin j hlt h2

/-- When find? misses on a contiguous integer range, every range element
fails the predicate. -/
theorem find?_range'_eq_none (p : Nat → Bool) (n s : Nat)
    (h : (List.range' s n).find? p = none) :
    ∀ j, s ≤ j → j < s + n → p j = false := by
  intro j h1 h2
  exact Bool.eq_false_iff.2 (List.find?_eq_none.1 h j (List.mem_range'_1.2 ⟨h1, h2⟩))

/-- Every element of a list of naturals is at most its Python max. -/
theorem le_listMax {l : List Nat} {x : Nat} (hx : x ∈ l) : x ≤ listMax l := by
  induction l with
  | nil => simp at hx
  | cons a l ih =>
    simp only [listMax]
    rcases List.mem_cons.1 hx with rfl | h
    · exact le_max_left _ _
    · exact le_trans (ih h) (le_max_right _ _)

/-- The allocator id is positive, absent from the scope ids, and minimal
among the positive integers absent from the scope ids. -/
theorem next_id_spec (db : DB) (trip ch : String) :
    1 ≤ get_next_available_car_id db trip ch ∧
    get_next_available_car_id db trip ch ∉ scopeIds db trip ch ∧
    ∀ j, 1 ≤ j → j < get_next_available_car_id db trip ch → j ∈ scopeIds db trip ch := by
  unfold get_next_available_car_id
  cases hemp : (scopeIds db trip ch).isEmpty with
  | true =>
    have hnil : scopeIds db trip ch = [] := List.isEmpty_iff.1 hemp
    simp only [hemp]
    refine ⟨le_refl _, by simp [hnil], ?_⟩
    intro j h1 h2
    exact absurd (lt_of_le_of_lt h1 h2) (by simp)
  | false =>
    simp only [hemp]
    rw [if_neg (by simp)]
    split
    next i hfind =>
      obtain ⟨hpi, h1i, hmin⟩ := find?_range'_eq_some _ _ _ _ hfind
      refine ⟨h1i, ?_, ?_⟩
      · simpa using hpi
      · intro j hj1 hj2
        simpa using hmin j hj1 hj2
    next hfind =>
      refine ⟨by omega, ?_, ?_⟩
      · intro hmem
        exact absurd (le_listMax hmem) (by omega)
      · intro j hj1 hj2
        simpa using find?_range'_eq_none _ _ _ hfind j hj1 (by omega)

/-- The seat-update UPDATE statement rewrites exactly the row find? locates
for the id, leaving its position and every other field unchanged. -/
theorem find?_map_set_seats (i : Nat) (n : Int) :
    ∀ (l : List Car) (K : Car), l.find? (fun c => c.id == i) = some K →
      (l.map (fun c => if c.id == i then { c with seats := n } else c)).find?
        (fun c => c.id == i) = some { K with seats := n } := by
  intro l
  induction l with
  | nil => intro K h; simp at h
  | cons a l ih =>
    intro K h
    by_cases ha : (a.id == i) = true
    · rw [List.find?_cons, ha] at h
      injection h with h
      subst h
      rw [List.map_cons, if_pos ha, List.find?_cons]
      have ha2 : (({ a with seats := n } : Car).id == i) = true := ha
      rw [ha2]
    · have ha2 : (a.id == i) = false := Bool.eq_false_iff.2 ha
      rw [List.find?_cons, ha2] at h
      rw [List.map_cons, if_neg ha, List.find?_cons, ha2]
      exact ih K h

/-- When the pending-request lookup of the /in command comes back empty, the
pending count of the user in that scope is zero. -/
theorem userPendingCount_eq_zero (db : DB) (u ch trip : String)
    (h : userRequestCar db u ch trip = none) :
    userPendingCount db u ch trip = 0 := by
  unfold userRequestCar at h
  rw [List.head?_eq_none_iff, List.filterMap_eq_nil_iff] at h
  unfold userPendingCount
  rw [List.length_eq_zero, List.filter_eq_nil_iff]
  intro r hr hcontra
  rw [Bool.and_eq_true] at hcontra
  have hfind := h r hr
  rw [if_pos hcontra.1] at hfind
  rcases List.any_eq_true.1 hcontra.2 with ⟨c, hc, hqc⟩
  exact absurd hqc (by simpa using List.find?_eq_none.1 hfind c hc)

/-- Outside the one arm that inserts a join request, the /in command leaves
the database unchanged; in that arm the insertion happens only after the
pending-request lookup came back empty. -/
theorem cmd_in_db_shape (db : DB) (ch user target : String) :
    (cmd_in db ch user target).db = db ∨
    ∃ t car, activeTrip db ch = some t ∧
      userRequestCar db user ch t.name = none ∧
      carOfOwner db ch t.name target = some car ∧
      (cmd_in db ch user target).db =
        { db with join_requests := db.join_requests ++ [⟨car.id, user⟩] } := by
  unfold cmd_in
  split
  · exact Or.inl rfl
  · split
    · exact Or.inl rfl
    next t hat =>
      split
      · exact Or.inl rfl
      next hown =>
        split
        · exact Or.inl rfl
        next hreq =>
          split
          · exact Or.inl rfl
          next car hcar =>
            split
            · exact Or.inl rfl
            next hcur =>
              split
              · exact Or.inl rfl
              · exact Or.inr ⟨t, car, hat, hreq, hcar, rfl⟩

/-- insertMembers never touches the cars table. -/
theorem insertMembers_cars (i : Nat) :
    ∀ (l : List String) (db : DB), (insertMembers db i l).1.cars = db.cars := by
  intro l
  induction l with
  | nil => intro db; rfl
  | cons x xs ih =>
    intro db
    unfold insertMembers
    by_cases hx : isMember db i x = true
    · rw [if_pos hx]; exact ih db
    · rw [if_neg hx]
      exact ih { db with car_members := db.car_members ++ [⟨i, x⟩] }

/-- insertMembers grows the member count of its car by at most the batch
size. -/
theorem insertMembers_count_le (i : Nat) :
    ∀ (l : List String) (db : DB),
      memberCount (insertMembers db i l).1 i ≤ memberCount db i + l.length := by
  intro l
  induction l with
  | nil => intro db; simp [insertMembers]
  | cons x xs ih =>
    intro db
    unfold insertMembers
    by_cases hx : isMember db i x = true
    · rw [if_pos hx]
      have := ih db
      simp only [List.length_cons]
      omega
    · rw [if_neg hx]
      have h1 := ih { db with car_members := db.car_members ++ [⟨i, x⟩] }
      have h2 : memberCount { db with car_members := db.car_members ++ [⟨i, x⟩] } i =
          memberCount db i + 1 := by
        unfold memberCount
        dsimp only
        rw [List.filter_append, List.length_append]
        simp
      rw [h2] at h1
      simp only [List.length_cons]
      omega

/-- insertMembers leaves the member counts of every other car unchanged. -/
theorem insertMembers_count_ne (i j : Nat) (hji : j ≠ i) :
    ∀ (l : List String) (db : DB),
      memberCount (insertMembers db i l).1 j = memberCount db j := by
  intro l
  induction l with
  | nil => intro db; rfl
  | cons x xs ih =>
    intro db
    unfold insertMembers
    by_cases hx : isMember db i x = true
    · rw [if_pos hx]; exact ih db
    · rw [if_neg hx]
      rw [ih { db with car_members := db.car_members ++ [⟨i, x⟩] }]
      unfold memberCount
      dsimp only
      rw [List.filter_append, List.length_append]
      have : (i == j) = false := beq_eq_false_iff_ne.2 (Ne.symm hji)
      simp [this]

/-- A database whose cars are those of db and whose member counts are
pointwise at most those of db inherits the capacity invariant of db. -/
theorem capacityOK_of_le (db db2 : DB) (hcars : db2.cars = db.cars)
    (hle : ∀ j, memberCount db2 j ≤ memberCount db j) (hcap : capacityOK db) :
    capacityOK db2 := by
  intro c hc
  rw [hcars] at hc
  calc ((memberCount db2 c.id : Nat) : Int) ≤ ((memberCount db c.id : Nat) : Int) := by
        exact_mod_cast hle c.id
    _ ≤ c.seats := hcap c hc

/-- The guarded insert of the approval handler preserves the capacity
invariant: when the capacity check on the intermediate state passes, adding
the one membership row keeps every car within its seats. -/
theorem capacityOK_insert_step (db db1 : DB) (car : Car) (car_id : Nat) (u : String)
    (hcars : db1.cars = db.cars)
    (hle : ∀ j, memberCount db1 j ≤ memberCount db j)
    (hnd : (db.cars.map Car.id).Nodup)
    (hcap : capacityOK db)
    (hcar : findCar db car_id = some car)
    (hfull : ¬ car.seats ≤ ((memberCount db1 car_id : Nat) : Int)) :
    capacityOK { removeRequest db1 car_id u with
      car_members := (removeRequest db1 car_id u).car_members ++ [⟨car_id, u⟩] } := by
  intro c hc
  have hc2 : c ∈ db.cars := by
    rw [← hcars]
    exact hc
  by_cases hcid : c.id = car_id
  · have hcarmem : car ∈ db.cars := List.mem_of_find?_eq_some hcar
    have hcarid : car.id = car_id := by simpa using List.find?_some hcar
    have hceq : c = car :=
      List.inj_on_of_nodup_map hnd hc2 hcarmem (by rw [hcid, hcarid])
    have hcount : memberCount { removeRequest db1 car_id u with
        car_members := (removeRequest db1 car_id u).car_members ++ [⟨car_id, u⟩] } car_id =
        memberCount db1 car_id + 1 := by
      unfold memberCount
      dsimp only
      rw [List.filter_append, List.length_append]
      simp
      rfl
    rw [hcid, hcount, hceq]
    push_cast
    omega
  · have hcount : memberCount { removeRequest db1 car_id u with
        car_members := (removeRequest db1 car_id u).car_members ++ [⟨car_id, u⟩] } c.id =
        memberCount db1 c.id := by
      unfold memberCount
      dsimp only
      rw [List.filter_append, List.length_append]
      have : (car_id == c.id) = false := beq_eq_false_iff_ne.2 (fun h => hcid h.symm)
      simp [this]
      rfl
    rw [hcount]
    calc ((memberCount db1 c.id : Nat) : Int) ≤ ((memberCount db c.id : Nat) : Int) := by
          exact_mod_cast hle c.id
      _ ≤ c.seats := hcap c hc2

/-! ## Theorems for the claims -/

/-- C1: code-bug witness.  The claim says that after every engine operation a
user is a member of at most one car of the trip, in particular that car
creation by a user who is already a member of another car does not produce a
second simultaneous membership.  In dbC1 user b is a member of car 1, yet
running the car-creation command for b succeeds (car id 2) and leaves b with
two simultaneous memberships on the same trip and channel: cmd_car checks
neither membership of another car nor anything except the two unique keys. -/
theorem car_creation_duplicates_membership :
    userMembershipCount dbC1 "b" "t" "ch" = 1 ∧
    (cmd_car dbC1 "ch" "b" 4 "bob").out = CarOut.ok 2 ∧
    userMembershipCount (cmd_car dbC1 "ch" "b" 4 "bob").db "b" "t" "ch" = 2 := by
  refine ⟨rfl, rfl, rfl⟩

/-- C2 counterexample: in dbC2 the approving click on the full car 2 for user
c, who is a member of car 1, returns the car-full failure yet removes the
membership of c in car 1 -- the failing operation does not leave every
membership unchanged, and the old membership is removed without the new one
being inserted. -/
theorem approve_full_removes_old_membership_cex :
    userMembershipCount dbC2 "c" "t" "ch" = 1 ∧
    (act_approve dbC2 "ch" "b" 2 "c").out = ApproveOut.carFull ∧
    userMembershipCount (act_approve dbC2 "ch" "b" 2 "c").db "c" "t" "ch" = 0 := by
  refine ⟨rfl, rfl, rfl⟩

/-- C3 counterexample: the standalone add_users_to_car has no capacity check:
in dbC3 the single-seat car 1 already holds its owner, yet adding b succeeds
and leaves 2 members in a 1-seat car. -/
theorem add_users_to_car_exceeds_capacity_cex :
    (add_users_to_car dbC3 1 "ch" "a" ["b"]).out = SAddOut.added ["b"] ∧
    (findCar (add_users_to_car dbC3 1 "ch" "a" ["b"]).db 1).map Car.seats = some 1 ∧
    memberCount (add_users_to_car dbC3 1 "ch" "a" ["b"]).db 1 = 2 := by
  refine ⟨rfl, rfl, rfl⟩

/-- C4 counterexample: the affirmative switch-confirmation handler only guards
against a duplicate request on the same car, so confirming two outstanding
switch dialogs (cars 2 and 3) gives user u two pending join requests within
the same trip, violating the at-most-one bound. -/
theorem confirm_switch_two_pending_cex :
    userPendingCount dbC4 "u" "ch" "t" = 0 ∧
    (act_confirm_car_switch dbC4 2 "u" 1).out = SwitchOut.sent ∧
    userPendingCount
      (act_confirm_car_switch (act_confirm_car_switch dbC4 2 "u" 1).db 3 "u" 1).db
      "u" "ch" "t" = 2 := by
  refine ⟨rfl, rfl, rfl⟩

/-- C5 counterexample: when owner o leaves car 1 whose other members are b and
c, the car is deleted but the notification list contains no direct message at
all -- b and c do not each receive an individual departure notification, only
a single channel announcement is posted. -/
theorem owner_leave_no_member_dm_cex :
    isMember dbC5 1 "b" = true ∧ isMember dbC5 1 "c" = true ∧
    (cmd_out dbC5 "ch" "o").out = OutOut.ownerLeft 1 ∧
    (cmd_out dbC5 "ch" "o").notifs.filter Notif.isDm = [] := by
  refine ⟨rfl, rfl, rfl, rfl⟩

/-- C6: code-bug witness.  With the active trip Winter created by the still
present user y, the trip command issued by x for Spring returns only the
cannot-switch ephemeral to x: no approval request is sent to y (the
notification list holds no direct message) and no state changes.  The source
comments the branch with implement approval flow and ships unreachable
approve and deny handlers for it, so the claimed handshake is the documented
intent, not the behaviour. -/
theorem trip_switch_no_approval_request :
    (cmd_trip dbC6 (fun _ => true) ["x", "y"] "ch" "x" "Spring").out = TripOut.cannotSwitch ∧
    (cmd_trip dbC6 (fun _ => true) ["x", "y"] "ch" "x" "Spring").db = dbC6 ∧
    (cmd_trip dbC6 (fun _ => true) ["x", "y"] "ch" "x" "Spring").notifs =
      [Notif.eph Msg.cannotSwitchTrip] := by
  refine ⟨rfl, rfl, rfl⟩

/-- C9 counterexample: the approve and deny button handlers never compare the
invoking user with the creator of the car.  In dbC9 the car is owned by b,
yet the click of the unrelated user e approves u (the membership is inserted)
and likewise deletes the pending request on the deny path -- neither fails as
an authorization error, and both change state. -/
theorem approve_deny_by_non_creator_cex :
    (findCar dbC9 2).map Car.created_by = some "b" ∧
    (act_approve dbC9 "ch" "e" 2 "u").out = ApproveOut.approved none ∧
    isMember (act_approve dbC9 "ch" "e" 2 "u").db 2 "u" = true ∧
    hasRequest dbC9 2 "u" = true ∧
    hasRequest (act_deny dbC9 "e" 2 "u").db 2 "u" = false := by
  refine ⟨rfl, rfl, rfl, rfl, rfl⟩

/-- C5 amended: when the leaving user is the creator of the car they occupy
on the active trip, the car row, all of its membership rows and all of its
pending join requests are deleted with no orphan rows remaining; the only
notifications are the ephemeral confirmation to the owner and one channel
announcement -- the remaining members receive no individual message. -/
theorem owner_leave_deletes_car_cascade (db : DB) (ch user : String) (t : Trip) (car : Car)
    (ht : activeTrip db ch = some t)
    (hc : carOfMemberJoin db ch t.name user = some car)
    (hown : user = car.created_by) :
    (cmd_out db ch user).out = OutOut.ownerLeft car.id ∧
    (∀ c ∈ (cmd_out db ch user).db.cars, c.id ≠ car.id) ∧
    (∀ m ∈ (cmd_out db ch user).db.car_members, m.car_id ≠ car.id) ∧
    (∀ r ∈ (cmd_out db ch user).db.join_requests, r.car_id ≠ car.id) ∧
    (cmd_out db ch user).notifs =
      [Notif.eph Msg.leftAndDeletedCar, Notif.channelPost ch Msg.ownerLeftAnnounce] := by
  unfold cmd_out
  rw [ht]
  dsimp only
  rw [hc]
  dsimp only
  rw [if_pos (beq_iff_eq.mpr hown)]
  refine ⟨rfl, ?_, ?_, ?_, rfl⟩ <;>
    · intro x hx
      simp only [deleteCarCascade, List.mem_filter, Bool.not_eq_eq_eq_not, Bool.not_true,
        beq_eq_false_iff_ne, ne_eq] at hx
      exact hx.2

/-- C5 witness: the general owner-departure theorem applied to the concrete
state dbC5w, whose car 1 has owner o, members o, b, c and a pending request. -/
theorem owner_leave_deletes_car_cascade_witness :
    activeTrip dbC5w "ch" = some ⟨"t", "ch", "o", true⟩ ∧
    carOfMemberJoin dbC5w "ch" "t" "o" = some ⟨1, "t", "ch", "x", 3, "o"⟩ ∧
    ((cmd_out dbC5w "ch" "o").out = OutOut.ownerLeft 1 ∧
     (∀ c ∈ (cmd_out dbC5w "ch" "o").db.cars, c.id ≠ 1) ∧
     (∀ m ∈ (cmd_out dbC5w "ch" "o").db.car_members, m.car_id ≠ 1) ∧
     (∀ r ∈ (cmd_out dbC5w "ch" "o").db.join_requests, r.car_id ≠ 1) ∧
     (cmd_out dbC5w "ch" "o").notifs =
       [Notif.eph Msg.leftAndDeletedCar, Notif.channelPost "ch" Msg.ownerLeftAnnounce]) :=
  ⟨rfl, rfl, owner_leave_deletes_car_cascade dbC5w "ch" "o" ⟨"t", "ch", "o", true⟩
    ⟨1, "t", "ch", "x", 3, "o"⟩ rfl rfl rfl⟩

/-- C10: every car id is unique across the whole cars table -- cmd_car
preserves distinctness of the id column -- and a creation whose scope-local
gap-filling id coincides with any existing car id, in whatever scope, fails
through the same caught UniqueViolation and the same you-already-created-a-car
message as a duplicate-owner attempt, and no car is inserted. -/
theorem car_id_globally_unique (db : DB) (ch user username : String) (seats : Int)
    (t : Trip) (ht : activeTrip db ch = some t) :
    ((db.cars.map Car.id).Nodup →
      (((cmd_car db ch user seats username).db).cars.map Car.id).Nodup) ∧
    ((∃ c ∈ db.cars, c.id = get_next_available_car_id db t.name ch) →
      (cmd_car db ch user seats username).out = CarOut.uniqueViolation ∧
      (cmd_car db ch user seats username).db = db ∧
      (cmd_car db ch user seats username).notifs = [Notif.eph Msg.alreadyCreatedCar]) ∧
    ((∃ c ∈ db.cars, c.trip = t.name ∧ c.channel_id = ch ∧ c.created_by = user) →
      (cmd_car db ch user seats username).out = CarOut.uniqueViolation ∧
      (cmd_car db ch user seats username).db = db ∧
      (cmd_car db ch user seats username).notifs = [Notif.eph Msg.alreadyCreatedCar]) := by
  unfold cmd_car
  rw [ht]
  dsimp only
  split
  case isTrue hcond =>
    refine ⟨fun hnd => hnd, fun _ => ⟨rfl, rfl, rfl⟩, fun _ => ⟨rfl, rfl, rfl⟩⟩
  case isFalse hcond =>
    simp only [Bool.or_eq_true, not_or] at hcond
    obtain ⟨⟨hno_id, hno_owner⟩, _hno_mem⟩ := hcond
    refine ⟨?_, ?_, ?_⟩
    · intro hnd
      dsimp only
      rw [List.map_append]
      refine List.Nodup.append hnd (List.nodup_singleton _) ?_
      intro a ha hb
      rcases List.mem_map.1 ha with ⟨c, hc, hcid⟩
      rcases List.mem_singleton.1 hb with rfl
      exact hno_id (List.any_eq_true.2 ⟨c, hc, beq_iff_eq.mpr hcid⟩)
    · rintro ⟨c, hc, hid⟩
      exfalso
      apply hno_id
      refine List.any_eq_true.2 ⟨c, hc, ?_⟩
      exact beq_iff_eq.mpr hid
    · rintro ⟨c, hc, h1, h2, h3⟩
      exfalso
      apply hno_owner
      refine List.any_eq_true.2 ⟨c, hc, ?_⟩
      simp [h1, h2, h3]

/-- C10 witness: in dbC10 the scope (t, ch) is empty so the allocator yields
id 1, which already names the car of the foreign scope (t2, d); creation by x
fails with the duplicate-car message and inserts nothing. -/
theorem car_id_globally_unique_witness :
    activeTrip dbC10 "ch" = some ⟨"t", "ch", "a", true⟩ ∧
    get_next_available_car_id dbC10 "t" "ch" = 1 ∧
    ((cmd_car dbC10 "ch" "x" 3 "xx").out = CarOut.uniqueViolation ∧
     (cmd_car dbC10 "ch" "x" 3 "xx").db = dbC10 ∧
     (cmd_car dbC10 "ch" "x" 3 "xx").notifs = [Notif.eph Msg.alreadyCreatedCar]) :=
  ⟨rfl, rfl,
    (car_id_globally_unique dbC10 "ch" "x" "xx" 3 ⟨"t", "ch", "a", true⟩ rfl).2.1
      ⟨⟨1, "t2", "d", "z car", 4, "z"⟩, by simp [dbC10], rfl⟩⟩

/-- C8: for the (trip, channel) scope of the active trip, the allocator
returns the smallest positive integer not present among the existing car ids
of that scope, and every successful car creation inserts the new car under
exactly this id. -/
theorem allocate_car_id_smallest_missing (db : DB) (ch : String) (t : Trip)
    (ht : activeTrip db ch = some t) :
    (1 ≤ get_next_available_car_id db t.name ch ∧
     get_next_available_car_id db t.name ch ∉ scopeIds db t.name ch ∧
     (∀ j, 1 ≤ j → j < get_next_available_car_id db t.name ch →
        j ∈ scopeIds db t.name ch)) ∧
    ∀ (user username : String) (seats : Int) (i : Nat),
      (cmd_car db ch user seats username).out = CarOut.ok i →
      i = get_next_available_car_id db t.name ch ∧
      (⟨i, t.name, ch, username ++ " car", seats, user⟩ : Car) ∈
        (cmd_car db ch user seats username).db.cars := by
  refine ⟨next_id_spec db t.name ch, ?_⟩
  intro user username seats i hok
  unfold cmd_car at hok ⊢
  rw [ht] at hok ⊢
  dsimp only at hok ⊢
  split at hok
  next hcond =>
    exact absurd hok (by simp)
  next hcond =>
    rw [if_neg hcond]
    dsimp only at hok ⊢
    injection hok with hok
    subst hok
    exact ⟨rfl, by simp⟩

/-- C8 witness: in dbC8 the scope ids are 1 and 3 (the state after deleting
car 2 from ids 1, 2, 3), and the allocator returns 2, not 4. -/
theorem allocate_car_id_smallest_missing_witness :
    activeTrip dbC8 "ch" = some ⟨"t", "ch", "a", true⟩ ∧
    get_next_available_car_id dbC8 "t" "ch" = 2 ∧
    (1 ≤ get_next_available_car_id dbC8 "t" "ch" ∧
     get_next_available_car_id dbC8 "t" "ch" ∉ scopeIds dbC8 "t" "ch" ∧
     (∀ j, 1 ≤ j → j < get_next_available_car_id dbC8 "t" "ch" →
        j ∈ scopeIds dbC8 "t" "ch")) :=
  ⟨rfl, rfl, (allocate_car_id_smallest_missing dbC8 "ch" ⟨"t", "ch", "a", true⟩ rfl).1⟩

/-- C7: for a caller who owns car K on the active trip of the channel and any
requested seat count n at least 1, the two-phase update flow (the command
followed by its confirmation click on the unchanged state) fails exactly when
n is below the current member count of K, and otherwise leaves the seat
capacity of K at n. -/
theorem update_seats_fails_iff_below_membership (db : DB) (ch user : String)
    (n : Int) (t : Trip) (K : Car)
    (ht : activeTrip db ch = some t)
    (hK : carOfOwner db ch t.name user = some K)
    (hK2 : findCar db K.id = some K)
    (hn : 1 ≤ n) :
    ((updateSeatsFlow db ch user n).1 = SeatsFlowOut.failed ↔
      n < (memberCount db K.id : Int)) ∧
    ((updateSeatsFlow db ch user n).1 ≠ SeatsFlowOut.failed →
      (findCar (updateSeatsFlow db ch user n).2 K.id).map Car.seats = some n) := by
  have howner : (K.created_by == user) = true := by
    have hp := List.find?_some hK
    simp only [Bool.and_eq_true] at hp
    exact beq_iff_eq.mpr (beq_iff_eq.1 hp.2)
  unfold updateSeatsFlow cmd_update
  rw [if_neg (by omega : ¬ n < 1), ht]
  dsimp only
  rw [hK]
  dsimp only
  by_cases hlt : n < (memberCount db K.id : Int)
  · rw [if_pos hlt]
    exact ⟨⟨fun _ => hlt, fun _ => rfl⟩, fun h => absurd rfl h⟩
  · rw [if_neg hlt]
    by_cases heq : (n == K.seats) = true
    · rw [if_pos heq]
      refine ⟨⟨fun h => by simp at h, fun h => absurd h hlt⟩, ?_⟩
      intro _
      rw [hK2]
      have hs : K.seats = n := (beq_iff_eq.1 heq).symm
      simp [hs]
    · rw [if_neg heq]
      dsimp only
      unfold handle_confirm_update_car
      rw [hK2]
      dsimp only
      rw [if_neg (by simp [howner])]
      refine ⟨⟨fun h => by simp at h, fun h => absurd h hlt⟩, ?_⟩
      intro _
      unfold findCar
      dsimp only
      rw [find?_map_set_seats K.id n db.cars K hK2]
      rfl

/-- C7 witness: the flow theorem applied to dbC7, whose car 1 is owned by a
with 4 seats and 2 members; requesting 3 seats does not fail and leaves the
capacity at 3. -/
theorem update_seats_fails_iff_below_membership_witness :
    activeTrip dbC7 "ch" = some ⟨"t", "ch", "a", true⟩ ∧
    carOfOwner dbC7 "ch" "t" "a" = some ⟨1, "t", "ch", "x", 4, "a"⟩ ∧
    findCar dbC7 1 = some ⟨1, "t", "ch", "x", 4, "a"⟩ ∧
    (1 : Int) ≤ 3 ∧
    (((updateSeatsFlow dbC7 "ch" "a" 3).1 = SeatsFlowOut.failed ↔
       (3 : Int) < (memberCount dbC7 1 : Int)) ∧
     ((updateSeatsFlow dbC7 "ch" "a" 3).1 ≠ SeatsFlowOut.failed →
       (findCar (updateSeatsFlow dbC7 "ch" "a" 3).2 1).map Car.seats = some 3)) :=
  ⟨rfl, rfl, rfl, by norm_num,
    update_seats_fails_iff_below_membership dbC7 "ch" "a" 3 ⟨"t", "ch", "a", true⟩
      ⟨1, "t", "ch", "x", 4, "a"⟩ rfl rfl rfl (by norm_num)⟩

/-- C4 amended: the /in command fails with the duplicate-request error and
changes nothing whenever the user already has a pending request on the active
trip (given the earlier guards pass), and /in preserves the at-most-one bound
on pending requests because it inserts only after finding none; the
switch-confirmation handler, by contrast, is not covered by this bound (see
the counterexample). -/
theorem request_join_pending_bound (db : DB) (ch user target : String) (t : Trip)
    (ht : activeTrip db ch = some t) :
    (userPendingCount db user ch t.name ≤ 1 →
      userPendingCount (cmd_in db ch user target).db user ch t.name ≤ 1) ∧
    (target ≠ user → carOfOwner db ch t.name user = none →
      (userRequestCar db user ch t.name).isSome →
      (cmd_in db ch user target).out = InOut.duplicateRequest ∧
      (cmd_in db ch user target).db = db) := by
  constructor
  · intro hle
    rcases cmd_in_db_shape db ch user target with h | ⟨t2, car, hat, hreq, _, hdb⟩
    · rw [h]; exact hle
    · rw [ht] at hat
      injection hat with hat
      subst hat
      have h0 : userPendingCount db user ch t.name = 0 :=
        userPendingCount_eq_zero _ _ _ _ hreq
      unfold userPendingCount at h0 ⊢
      rw [hdb]
      dsimp only
      rw [List.filter_append, List.length_append, h0]
      have hle1 := List.length_filter_le
        (fun r => r.user_id == user &&
          db.cars.any (fun c => c.id == r.car_id && c.channel_id == ch && c.trip == t.name))
        ([⟨car.id, user⟩] : List JoinRequest)
      simpa using hle1
  · intro hne hown hsome
    obtain ⟨c, hc⟩ := Option.isSome_iff_exists.1 hsome
    unfold cmd_in
    rw [if_neg (by simp [hne])]
    rw [ht]
    dsimp only
    rw [hown]
    dsimp only
    rw [hc]
    exact ⟨rfl, rfl⟩

/-- C4 witness: in dbC4w user u already has a pending request on car 1 of the
active trip, so a second /in towards the owner of car 2 fails as a duplicate
and changes nothing, and the pending bound is preserved. -/
theorem request_join_pending_bound_witness :
    activeTrip dbC4w "ch" = some ⟨"t", "ch", "a", true⟩ ∧
    ("b" : String) ≠ "u" ∧
    carOfOwner dbC4w "ch" "t" "u" = none ∧
    (userRequestCar dbC4w "u" "ch" "t").isSome = true ∧
    ((userPendingCount dbC4w "u" "ch" "t" ≤ 1 →
      userPendingCount (cmd_in dbC4w "ch" "u" "b").db "u" "ch" "t" ≤ 1) ∧
     ((cmd_in dbC4w "ch" "u" "b").out = InOut.duplicateRequest ∧
      (cmd_in dbC4w "ch" "u" "b").db = dbC4w)) := by
  refine ⟨rfl, by decide, rfl, rfl, ?_, ?_⟩
  · exact (request_join_pending_bound dbC4w "ch" "u" "b" ⟨"t", "ch", "a", true⟩ rfl).1
  · exact (request_join_pending_bound dbC4w "ch" "u" "b" ⟨"t", "ch", "a", true⟩ rfl).2
      (by decide) rfl rfl

/-- C2 amended: an approval on a car at capacity deletes the join request and
fails with the car-full outcome, but because the switch removal precedes the
capacity check, a target user who was a member of another car of the trip has
already lost that membership: the car-full outcome leaves the user with
neither the old nor the new membership.  Only in the successful outcome do
the removal of the old membership (when one existed) and the insertion of the
new one happen together in the same transaction. -/
theorem approve_full_and_switch_behavior (db : DB) (ch caller u : String)
    (car_id : Nat) (car : Car)
    (hcar : findCar db car_id = some car) :
    ((act_approve db ch caller car_id u).out = ApproveOut.carFull →
      hasRequest (act_approve db ch caller car_id u).db car_id u = false ∧
      isMember (act_approve db ch caller car_id u).db car_id u = false ∧
      ∀ old, userCarInTrip db u car.trip ch = some old →
        isMember (act_approve db ch caller car_id u).db old.id u = false) ∧
    (∀ o, (act_approve db ch caller car_id u).out = ApproveOut.approved o →
      isMember (act_approve db ch caller car_id u).db car_id u = true ∧
      hasRequest (act_approve db ch caller car_id u).db car_id u = false ∧
      ∀ oc, o = some oc → oc ≠ car_id →
        isMember (act_approve db ch caller car_id u).db oc u = false) := by
  unfold act_approve
  rw [hcar]
  dsimp only
  cases hex : userCarInTrip db u car.trip ch with
  | some oldCar =>
    dsimp only
    by_cases hmem : isMember (removeMember db oldCar.id u) car_id u = true
    · rw [if_pos hmem]
      exact ⟨fun hout => absurd hout (by simp), fun o hout => absurd hout (by simp)⟩
    · rw [if_neg hmem]
      by_cases hfull : car.seats ≤ ((memberCount (removeMember db oldCar.id u) car_id : Nat) : Int)
      · rw [if_pos hfull]
        refine ⟨fun _ => ⟨?_, ?_, ?_⟩, fun o hout => absurd hout (by simp)⟩
        · exact hasRequest_removeRequest_self _ _ _
        · exact Bool.eq_false_iff.2 hmem
        · intro old hold
          injection hold with hold
          subst hold
          exact isMember_removeMember_self db oldCar.id u
      · rw [if_neg hfull]
        refine ⟨fun hout => absurd hout (by simp), ?_⟩
        intro o hout
        injection hout with hout
        subst hout
        refine ⟨?_, ?_, ?_⟩
        · unfold isMember
          dsimp only
          rw [List.any_append]
          simp
        · exact hasRequest_removeRequest_self _ _ _
        · intro oc hoc hne
          injection hoc with hoc
          subst hoc
          have h2 : car_id ≠ oldCar.id := Ne.symm hne
          unfold isMember
          dsimp only
          rw [List.any_append]
          have h1 : ((removeRequest (removeMember db oldCar.id u) car_id u).car_members.any
              fun m => m.car_id == oldCar.id && m.user_id == u) = false :=
            isMember_removeMember_self db oldCar.id u
          rw [h1]
          simp [h2]
  | none =>
    dsimp only
    by_cases hmem : isMember db car_id u = true
    · rw [if_pos hmem]
      exact ⟨fun hout => absurd hout (by simp), fun o hout => absurd hout (by simp)⟩
    · rw [if_neg hmem]
      by_cases hfull : car.seats ≤ ((memberCount db car_id : Nat) : Int)
      · rw [if_pos hfull]
        refine ⟨fun _ => ⟨?_, ?_, ?_⟩, fun o hout => absurd hout (by simp)⟩
        · exact hasRequest_removeRequest_self _ _ _
        · exact Bool.eq_false_iff.2 hmem
        · intro old hold
          exact absurd hold (by simp)
      · rw [if_neg hfull]
        refine ⟨fun hout => absurd hout (by simp), ?_⟩
        intro o hout
        injection hout with hout
        subst hout
        refine ⟨?_, ?_, ?_⟩
        · unfold isMember
          dsimp only
          rw [List.any_append]
          simp
        · exact hasRequest_removeRequest_self _ _ _
        · intro oc hoc
          exact absurd hoc (by simp)

/-- C2 witness: the amended approve theorem applied to dbC2w, where car 2 is
full and the target c sits in car 1: the outcome is car-full and c ends up in
neither car. -/
theorem approve_full_and_switch_behavior_witness :
    findCar dbC2w 2 = some ⟨2, "t", "ch", "y", 1, "b"⟩ ∧
    (act_approve dbC2w "ch" "b" 2 "c").out = ApproveOut.carFull ∧
    (hasRequest (act_approve dbC2w "ch" "b" 2 "c").db 2 "c" = false ∧
     isMember (act_approve dbC2w "ch" "b" 2 "c").db 2 "c" = false ∧
     ∀ old, userCarInTrip dbC2w "c" "t" "ch" = some old →
       isMember (act_approve dbC2w "ch" "b" 2 "c").db old.id "c" = false) :=
  ⟨rfl, rfl,
    (approve_full_and_switch_behavior dbC2w "ch" "b" "c" 2 ⟨2, "t", "ch", "y", 1, "b"⟩ rfl).1 rfl⟩

/-- C3 amended: when every car id is distinct and every car is within its
capacity, the approval handler and the /add command keep every car within its
capacity; the standalone add_users_to_car function does not (see the
counterexample). -/
theorem approve_and_add_capacity_bound (db : DB) (ch caller u user : String)
    (car_id : Nat) (raw : List String)
    (hnd : (db.cars.map Car.id).Nodup)
    (hcap : capacityOK db) :
    capacityOK (act_approve db ch caller car_id u).db ∧
    capacityOK (cmd_add db ch user raw).db := by
  constructor
  · unfold act_approve
    cases hcar : findCar db car_id with
    | none => exact hcap
    | some car =>
      dsimp only
      cases hex : userCarInTrip db u car.trip ch with
      | some oldCar =>
        dsimp only
        by_cases h1 : isMember (removeMember db oldCar.id u) car_id u = true
        · rw [if_pos h1]
          exact capacityOK_of_le db _ rfl
            (fun j => memberCount_removeMember_le db oldCar.id u j) hcap
        · rw [if_neg h1]
          by_cases h2 : car.seats ≤ ((memberCount (removeMember db oldCar.id u) car_id : Nat) : Int)
          · rw [if_pos h2]
            exact capacityOK_of_le db _ rfl
              (fun j => memberCount_removeMember_le db oldCar.id u j) hcap
          · rw [if_neg h2]
            exact capacityOK_insert_step db (removeMember db oldCar.id u) car car_id u rfl
              (fun j => memberCount_removeMember_le db oldCar.id u j) hnd hcap hcar h2
      | none =>
        dsimp only
        by_cases h1 : isMember db car_id u = true
        · rw [if_pos h1]
          exact capacityOK_of_le db _ rfl (fun j => le_refl _) hcap
        · rw [if_neg h1]
          by_cases h2 : car.seats ≤ ((memberCount db car_id : Nat) : Int)
          · rw [if_pos h2]
            exact capacityOK_of_le db _ rfl (fun j => le_refl _) hcap
          · rw [if_neg h2]
            exact capacityOK_insert_step db db car car_id u rfl (fun j => le_refl _)
              hnd hcap hcar h2
  · unfold cmd_add
    dsimp only
    by_cases hempty : ((dedupFirst [] raw).erase user).isEmpty = true
    · rw [if_pos hempty]; exact hcap
    · rw [if_neg hempty]
      cases hat : activeTrip db ch with
      | none => exact hcap
      | some t =>
        dsimp only
        cases hKo : carOfOwner db ch t.name user with
        | none => exact hcap
        | some K =>
          dsimp only
          by_cases hroom : K.seats - ((memberCount db K.id : Nat) : Int) <
              ((((dedupFirst [] raw).erase user).length : Nat) : Int)
          · rw [if_pos hroom]; exact hcap
          · rw [if_neg hroom]
            by_cases he2 : (((dedupFirst [] raw).erase user).filter
                (fun tu => !(isMember db K.id tu) &&
                  (userCarInTrip db tu t.name ch).isNone)).isEmpty = true
            · rw [if_pos he2]; exact hcap
            · rw [if_neg he2]
              dsimp only
              intro c hc
              rw [insertMembers_cars K.id _ db] at hc
              by_cases hcid : c.id = K.id
              · have hKmem : K ∈ db.cars := List.mem_of_find?_eq_some hKo
                have hceq : c = K :=
                  List.inj_on_of_nodup_map hnd hc hKmem (by rw [hcid])
                have hcnt := insertMembers_count_le K.id
                  (((dedupFirst [] raw).erase user).filter
                    (fun tu => !(isMember db K.id tu) &&
                      (userCarInTrip db tu t.name ch).isNone)) db
                have hlen : (((dedupFirst [] raw).erase user).filter
                    (fun tu => !(isMember db K.id tu) &&
                      (userCarInTrip db tu t.name ch).isNone)).length ≤
                    ((dedupFirst [] raw).erase user).length :=
                  List.length_filter_le _ _
                rw [hcid, hceq]
                push_cast at hroom
                omega
              · rw [insertMembers_count_ne K.id c.id hcid _ db]
                calc ((memberCount db c.id : Nat) : Int) ≤ c.seats := hcap c hc

/-- C3 witness: the preservation theorem applied to dbC3w, whose car 1 has 2
seats and 1 member: both the approval of the pending request of u and an /add
of b keep car 1 within its 2 seats. -/
theorem approve_and_add_capacity_bound_witness :
    (dbC3w.cars.map Car.id).Nodup ∧ capacityOK dbC3w ∧
    (capacityOK (act_approve dbC3w "ch" "a" 1 "u").db ∧
     capacityOK (cmd_add dbC3w "ch" "a" ["b"]).db) :=
  ⟨by decide, by unfold capacityOK; decide,
    approve_and_add_capacity_bound dbC3w "ch" "a" "u" "a" 1 ["b"] (by decide)
      (by unfold capacityOK; decide)⟩

/-- C9 amended: the approve and deny handlers ignore the invoking user
entirely -- the result is identical for every pair of callers, so the
handlers enforce no creator-only authorization themselves; the only gate is
that the buttons are delivered to the creator in a direct message. -/
theorem approve_deny_ignore_caller (db : DB) (ch c1 c2 : String) (i : Nat) (u : String) :
    act_approve db ch c1 i u = act_approve db ch c2 i u ∧
    act_deny db c1 i u = act_deny db c2 i u :=
  ⟨rfl, rfl⟩

end Carpool
